import Mathlib

/-
Verification of the qualityforge patch application engine
(src/qualityforge/tools/apply_path.py) against its design specification.

The engine applies unified-diff patches to a file tree.  The embedding
below translates the data model (`PatchLine`, `Hunk`, `PatchedFile`,
`PatchResult`) and the operations (`apply_single_hunk`,
`apply_hunks_to_content`, the three per-file handlers, path resolution,
and the orchestration loop) directly from the Python source.  The
filesystem is modelled per-file as `FileState` (optional content plus the
list of backup snapshots taken) and globally as a function from resolved
path strings to `FileState`; destructive actions additionally emit an
`FsEvent` trace so that ordering properties (backup before write) can be
stated.  Machine-level concerns that the claims do not touch (text
encodings other than the newline character, timestamps in backup file
names, parent-directory creation) are abstracted and noted where they
occur.
-/

/-- Tag of one line of a hunk: unchanged context, added, or removed
(models `unidiff` line flags `is_context` / `is_added` / `is_removed`). -/
inductive LineKind where
  | context
  | added
  | removed
deriving DecidableEq, Repr

/-- One line of a hunk: its kind and its raw text.  As in `unidiff`, the
value carries the trailing newline when the underlying file line has one. -/
structure PatchLine where
  kind : LineKind
  value : String
deriving DecidableEq, Repr

/-- One hunk of a unified diff, as parsed by `unidiff`:
`@@ -source_start,source_length +target_start,target_length @@` plus the
ordered body lines. -/
structure Hunk where
  source_start : Nat
  source_length : Nat
  target_start : Nat
  target_length : Nat
  lines : List PatchLine
deriving DecidableEq, Repr

/-- One per-file diff of a patchset, as exposed by `unidiff.PatchedFile`:
the diff-internal path, the add/remove flags, and the ordered hunks. -/
structure PatchedFile where
  path : String
  is_added_file : Bool
  is_removed_file : Bool
  hunks : List Hunk
deriving DecidableEq, Repr

/-- Models the `unidiff` library's `Hunk.added` property: the number of
added lines in the hunk. -/
def Hunk.addedCount (h : Hunk) : Nat :=
  (h.lines.filter (fun l => l.kind == LineKind.added)).length

/-- Models the `unidiff` library's `Hunk.removed` property: the number of
removed lines in the hunk. -/
def Hunk.removedCount (h : Hunk) : Nat :=
  (h.lines.filter (fun l => l.kind == LineKind.removed)).length

/-- Models the `unidiff` library's `PatchedFile.added` property: the total
number of added lines over all hunks. -/
def PatchedFile.added (pf : PatchedFile) : Nat :=
  (pf.hunks.map Hunk.addedCount).sum

/-- Models the `unidiff` library's `PatchedFile.removed` property: the
total number of removed lines over all hunks. -/
def PatchedFile.removed (pf : PatchedFile) : Nat :=
  (pf.hunks.map Hunk.removedCount).sum

/-- The values of the non-removed (context or added) lines of a hunk, in
order.  This is the `new_lines` list built by the loop in
`_apply_single_hunk`: added lines and context lines are appended to it in
order of appearance. -/
def hunkNewLines (h : Hunk) : List String :=
  (h.lines.filter (fun l => !(l.kind == LineKind.removed))).map PatchLine.value

/-- The values of the non-added (context or removed) lines of a hunk, in
order.  This is the `old_lines` list built by the loop in
`_apply_single_hunk`. -/
def hunkOldLines (h : Hunk) : List String :=
  (h.lines.filter (fun l => !(l.kind == LineKind.added))).map PatchLine.value

/-- Translation of `_apply_single_hunk`.  `target_line` is
`hunk.target_start - 1`; the result is
`lines[:target_line] + new_lines + lines[target_line + len(not-added):]`
with Python's clamping slice semantics (`List.take`/`List.drop` clamp the
same way for indices at or past the end; `target_start` is at least 1 for
the hunks the parser hands to the modify path, so the 0-based index is
non-negative).  Note that the source also extracts
`lines[target_line : target_line + len(not-added)]` into
`file_lines_to_check` but never compares it with `old_lines`: the
substitution below is performed unconditionally. -/
def apply_single_hunk (lines : List String) (h : Hunk) : List String :=
  let targetLine := h.target_start - 1
  let notAddedLen := (h.lines.filter (fun l => !(l.kind == LineKind.added))).length
  lines.take targetLine ++ hunkNewLines h ++ lines.drop (targetLine + notAddedLen)

/-- Translation of `_apply_hunks_to_content`: starting from a copy of the
original lines, the hunks are applied one by one in reversed list order
(`for hunk in reversed(list(patched_file))`). -/
def apply_hunks_to_content (original_lines : List String) (pf : PatchedFile) : List String :=
  pf.hunks.reverse.foldl apply_single_hunk original_lines

/-- Per-file result record, translated from the `PatchResult` pydantic
model (defaults included). -/
structure PatchResult where
  success : Bool
  file_path : String
  lines_added : Nat := 0
  lines_removed : Nat := 0
  hunks_applied : Nat := 0
  hunks_failed : Nat := 0
  backup_path : Option String := none
  error : Option String := none
  warnings : List String := []
deriving DecidableEq, Repr

/-- Aggregate result record, translated from the `PatchApplicationResult`
pydantic model. -/
structure PatchApplicationResult where
  success : Bool
  patches_applied : Nat := 0
  patches_failed : Nat := 0
  files_modified : List String := []
  results : List PatchResult := []
  error : Option String := none
deriving DecidableEq, Repr

/-- State of one file on disk: `content = none` means the file does not
exist; `backups` is the list of pre-mutation snapshots that have been
copied into the backup directory for this file, oldest first. -/
structure FileState where
  content : Option String
  backups : List String
deriving DecidableEq, Repr

/-- Destructive filesystem action performed on one file, recorded in
order, so that the position of the backup relative to the write or the
deletion can be stated. -/
inductive FsEvent where
  | backup (content : String)
  | write (content : String)
  | delete
deriving DecidableEq, Repr

/-- Whether an event is a backup creation. -/
def FsEvent.isBackup : FsEvent → Bool
  | .backup _ => true
  | _ => false

/-- Python's `str.startswith` / prefix test on the underlying character
sequence (kernel-computable, unlike `String.startsWith`). -/
def strStartsWith (s pre : String) : Bool :=
  List.isPrefixOf pre.data s.data

/-- Python's `str.endswith` / suffix test on the underlying character
sequence. -/
def strEndsWith (s post : String) : Bool :=
  List.isSuffixOf post.data s.data

/-- Removal of the first `n` characters of a string (Python `s[n:]`). -/
def strDrop (s : String) (n : Nat) : String :=
  String.mk (s.data.drop n)

/-- Translation of Python's `str.splitlines(keepends=True)` restricted to
the `'\n'` line terminator (the only terminator the claims and the test
scenarios exercise): the string is cut after every newline character and
each piece keeps its newline; a final piece without a newline is kept,
and the empty string yields no pieces. -/
def splitlinesKeependsAux : List Char → List Char → List (List Char)
  | [], acc => if acc.isEmpty then [] else [acc.reverse]
  | c :: rest, acc =>
    if c == '\n' then (c :: acc).reverse :: splitlinesKeependsAux rest []
    else splitlinesKeependsAux rest (c :: acc)

/-- String wrapper for `splitlinesKeependsAux`. -/
def splitlines_keepends (s : String) : List String :=
  (splitlinesKeependsAux s.data []).map String.mk

/-- Translation of Python's `value.rstrip('\n')`: remove every trailing
newline character. -/
def rstrip_newlines (s : String) : String :=
  String.mk (s.data.reverse.dropWhile (fun c => c == '\n')).reverse

/-- Name of the backup copy created by `_create_backup` for a file.  The
source stores the copy under `parent/.qualityforge_backups/` with the
original name plus a second-resolution timestamp and a `.backup` suffix;
the timestamp is nondeterministic wall-clock data, so the derived name is
abstracted to a fixed suffix of the file path.  The backed-up bytes
themselves are tracked exactly, in `FileState.backups`. -/
def backupName (filePath : String) : String :=
  filePath ++ ".backup"

/-- Translation of `_handle_added_file`.  The file must not exist; in a
dry run only the counts are reported; otherwise the new content is
assembled from the added lines of all hunks exactly as in the source
(`line.value.rstrip('\n')` collected in order, joined with `'\n'`, plus a
trailing newline when the assembled content is non-empty and does not
already end with one) and written.  Parent-directory creation always
succeeds in the model and write failures are not modelled (the claims
under study do not exercise them). -/
def handle_added_file (pf : PatchedFile) (filePath : String) (st : FileState)
    (dryRun : Bool) : PatchResult × FileState × List FsEvent :=
  match st.content with
  | some _ =>
    ({ success := false, file_path := filePath,
       error := some "Cannot add file that already exists" }, st, [])
  | none =>
    if dryRun then
      ({ success := true, file_path := filePath, lines_added := pf.added,
         lines_removed := 0, hunks_applied := pf.hunks.length }, st, [])
    else
      let contentLines :=
        (pf.hunks.flatMap Hunk.lines).foldl
          (fun acc l =>
            if l.kind == LineKind.added then acc ++ [rstrip_newlines l.value] else acc) []
      let body := String.intercalate "\n" contentLines
      let content := if !(body == "") && !(strEndsWith body "\n") then body ++ "\n" else body
      ({ success := true, file_path := filePath, lines_added := pf.added,
         lines_removed := 0, hunks_applied := pf.hunks.length },
       { content := some content, backups := st.backups }, [.write content])

/-- Translation of `_handle_removed_file`.  The file must exist; in a dry
run only the counts are reported; otherwise a backup is taken and the
file is deleted.  `backupOk` models whether `_create_backup` succeeds;
when it fails, the exception is caught by the handler's `except` clause
and converted into a failed result, leaving the file untouched. -/
def handle_removed_file (pf : PatchedFile) (filePath : String) (st : FileState)
    (dryRun : Bool) (backupOk : Bool) : PatchResult × FileState × List FsEvent :=
  match st.content with
  | none =>
    ({ success := false, file_path := filePath,
       error := some "Cannot remove file that doesn't exist" }, st, [])
  | some orig =>
    if dryRun then
      ({ success := true, file_path := filePath, lines_added := 0,
         lines_removed := pf.removed, hunks_applied := pf.hunks.length }, st, [])
    else if backupOk then
      ({ success := true, file_path := filePath, lines_added := 0,
         lines_removed := pf.removed, hunks_applied := pf.hunks.length,
         backup_path := some (backupName filePath) },
       { content := none, backups := st.backups ++ [orig] },
       [.backup orig, .delete])
    else
      ({ success := false, file_path := filePath,
         error := some "Failed to remove file: backup failed" }, st, [])

/-- Translation of `_handle_modified_file`.  The file must exist; its
content is split into keepends lines, every hunk is applied by
`apply_hunks_to_content`, and then either the counts are reported (dry
run) or a backup is taken and the joined new content written.  As in
`_handle_removed_file`, `backupOk` models the outcome of
`_create_backup`; a backup failure is caught and reported as a failed
result with the file untouched. -/
def handle_modified_file (pf : PatchedFile) (filePath : String) (st : FileState)
    (dryRun : Bool) (backupOk : Bool) : PatchResult × FileState × List FsEvent :=
  match st.content with
  | none =>
    ({ success := false, file_path := filePath,
       error := some "Cannot modify file that doesn't exist" }, st, [])
  | some orig =>
    let originalLines := splitlines_keepends orig
    let modifiedLines := apply_hunks_to_content originalLines pf
    if dryRun then
      ({ success := true, file_path := filePath, lines_added := pf.added,
         lines_removed := pf.removed, hunks_applied := pf.hunks.length }, st, [])
    else if backupOk then
      let modifiedContent := String.join modifiedLines
      ({ success := true, file_path := filePath, lines_added := pf.added,
         lines_removed := pf.removed, hunks_applied := pf.hunks.length,
         backup_path := some (backupName filePath) },
       { content := some modifiedContent, backups := st.backups ++ [orig] },
       [.backup orig, .write modifiedContent])
    else
      ({ success := false, file_path := filePath,
         error := some "Failed to apply patch: backup failed" }, st, [])

/-- Translation of the path test in `_resolve_file_path`: POSIX absolute
paths start with the separator (`Path.is_absolute`). -/
def isAbsolutePath (s : String) : Bool :=
  strStartsWith s "/"

/-- Translation of `_resolve_file_path`: strip a leading `a/` or `b/`
prefix when present; an absolute path is used as-is, a relative path is
joined under the target directory (`target_dir / clean_path`, modelled as
string concatenation with a single separator).  The function is total: no
input is rejected. -/
def resolve_file_path (patchPath : String) (targetDir : String) : String :=
  let cleanPath :=
    if strStartsWith patchPath "a/" || strStartsWith patchPath "b/" then strDrop patchPath 2
    else patchPath
  if isAbsolutePath cleanPath then cleanPath
  else targetDir ++ "/" ++ cleanPath

/-- Whole-tree state: the `FileState` of every resolved path. -/
def FsMap : Type := String → FileState

/-- Translation of `_apply_single_file_patch`: resolve the path, dispatch
on the `unidiff` file flags to the add / remove / modify handler, and
store the file's new state back into the tree.  The Python `except`
around the body converts any escaping exception into a failed
`PatchResult`; in the model the handlers are total, and the one modelled
failure source (`_create_backup`) is already converted inside them, so no
separate catch branch is needed here. -/
def apply_single_file_patch (pf : PatchedFile) (targetDir : String) (fs : FsMap)
    (dryRun : Bool) (backupOk : Bool) : PatchResult × FsMap :=
  let filePath := resolve_file_path pf.path targetDir
  let handled :=
    if pf.is_added_file then handle_added_file pf filePath (fs filePath) dryRun
    else if pf.is_removed_file then handle_removed_file pf filePath (fs filePath) dryRun backupOk
    else handle_modified_file pf filePath (fs filePath) dryRun backupOk
  (handled.1, fun p => if p = filePath then handled.2.1 else fs p)

/-- The inner loop of `apply_patches` over the files of one successfully
parsed patchset: each file produces exactly one `PatchResult` and the
tree state is threaded through. -/
def processFiles (files : List PatchedFile) (targetDir : String) (fs : FsMap)
    (dryRun : Bool) (backupOk : Bool) : List PatchResult × FsMap :=
  match files with
  | [] => ([], fs)
  | pf :: rest =>
    let step := apply_single_file_patch pf targetDir fs dryRun backupOk
    let tail := processFiles rest targetDir step.2 dryRun backupOk
    (step.1 :: tail.1, tail.2)

/-- The outer loop of `apply_patches` over the diff texts.  Parsing is
performed by the external `unidiff` library (plus the emptiness check of
`_parse_patch`), so each input is modelled by its parse outcome: either
an error message or the list of parsed per-file diffs.  A parse failure
contributes the single synthetic failed result built in the `except`
branch of `apply_patches` (`file_path = f"patch_{i + 1}"` for the i-th
input, 0-based) and the loop continues with the next input. -/
def applyPatchesAux (parsed : List (Except String (List PatchedFile))) (i : Nat)
    (targetDir : String) (fs : FsMap) (dryRun : Bool) (backupOk : Bool) :
    List PatchResult × FsMap :=
  match parsed with
  | [] => ([], fs)
  | Except.error msg :: rest =>
    let tail := applyPatchesAux rest (i + 1) targetDir fs dryRun backupOk
    (({ success := false, file_path := "patch_" ++ toString (i + 1),
        error := some msg } : PatchResult) :: tail.1, tail.2)
  | Except.ok files :: rest =>
    let this := processFiles files targetDir fs dryRun backupOk
    let tail := applyPatchesAux rest (i + 1) targetDir this.2 dryRun backupOk
    (this.1 ++ tail.1, tail.2)

/-- The first-seen deduplicated list of successfully touched paths
(`if result.file_path not in files_modified: files_modified.append(...)`,
executed for each successful result in order). -/
def filesModifiedOf (results : List PatchResult) : List String :=
  results.foldl
    (fun acc r =>
      if r.success && !(acc.contains r.file_path) then acc ++ [r.file_path] else acc) []

/-- Translation of `apply_patches`: run the loop over every input, then
aggregate.  The source increments `patches_applied` / `patches_failed`
and extends `files_modified` as it goes; the aggregation below computes
the same values from the finished result list. -/
def apply_patches (parsed : List (Except String (List PatchedFile)))
    (targetDir : String) (fs : FsMap) (dryRun : Bool) (backupOk : Bool) :
    PatchApplicationResult × FsMap :=
  let run := applyPatchesAux parsed 0 targetDir fs dryRun backupOk
  ({ success := (run.1.filter (fun r => !r.success)).length == 0,
     patches_applied := (run.1.filter (fun r => r.success)).length,
     patches_failed := (run.1.filter (fun r => !r.success)).length,
     files_modified := filesModifiedOf run.1,
     results := run.1 }, run.2)

/-- The hunk's `Context`+`Removed` line values in order — the expected
old segment in the wording of the specification (section 4.3 step 1). -/
def contextRemovedLines (h : Hunk) : List String :=
  (h.lines.filter
    (fun l => l.kind == LineKind.context || l.kind == LineKind.removed)).map PatchLine.value

/-- The hunk's `Context`+`Added` line values in order — the replacement
segment in the wording of the specification (section 4.3 step 4). -/
def contextAddedLines (h : Hunk) : List String :=
  (h.lines.filter
    (fun l => l.kind == LineKind.context || l.kind == LineKind.added)).map PatchLine.value

/-- Modelled from the spec: forward reference semantics of a well-formed
unified diff, used to state what it means for hunks to "correctly
describe the transformation of A into B".  Hunks are consumed in
ascending `source_start` order; each hunk's expected old segment
(`Context`+`Removed` values) must occur in A exactly at
`source_start - 1`, is replaced there by the hunk's `Context`+`Added`
values, and the untouched lines between and around hunks are kept.
`pos` is the index in A from which lines have not yet been consumed. -/
def forwardApplyAux (A : List String) (pos : Nat) : List Hunk → Option (List String)
  | [] => some (A.drop pos)
  | h :: rest =>
    let s := h.source_start - 1
    let oldSeg := contextRemovedLines h
    if pos ≤ s ∧ (A.drop s).take oldSeg.length = oldSeg then
      match forwardApplyAux A (s + oldSeg.length) rest with
      | some tail => some ((A.drop pos).take (s - pos) ++ contextAddedLines h ++ tail)
      | none => none
    else none

/-- Modelled from the spec: `forwardApply A hunks = some B` states that
the hunks form a well-formed diff transforming content A into content B. -/
def forwardApply (A : List String) (hs : List Hunk) : Option (List String) :=
  forwardApplyAux A 0 hs

/-- Split of a character sequence at every `/`, keeping empty pieces. -/
def splitSlashAux : List Char → List Char → List String
  | [], acc => [String.mk acc.reverse]
  | c :: rest, acc =>
    if c == '/' then String.mk acc.reverse :: splitSlashAux rest []
    else splitSlashAux rest (c :: acc)

/-- Path split into its non-empty components. -/
def pathSegments (s : String) : List String :=
  (splitSlashAux s.data []).filter (fun seg => !(seg == ""))

/-- Lexical normalization of path components: `.` is dropped and `..`
removes the preceding component.  A path escapes a root exactly when the
root's normalized components are not a prefix of its own. -/
def normalizeSegments (segs : List String) : List String :=
  segs.foldl
    (fun acc seg =>
      if seg == ".." then acc.dropLast
      else if seg == "." then acc
      else acc ++ [seg]) []

/-- Whether a resolved path lies outside the target root after lexical
normalization. -/
def escapesRoot (root resolved : String) : Bool :=
  !(List.isPrefixOf (normalizeSegments (pathSegments root))
      (normalizeSegments (pathSegments resolved)))

/-- The `Added` line values of a file diff, in order of appearance over
all hunks — "the number of Added lines" of claim C7 is the length of
this list. -/
def addedLineValues (pf : PatchedFile) : List String :=
  ((pf.hunks.flatMap Hunk.lines).filter (fun l => l.kind == LineKind.added)).map PatchLine.value

/-- Content of a newly added file in the wording of the specification:
the `Added` line texts (each value with its trailing newline stripped)
joined by newlines, with a single trailing newline appended when the
assembled content is non-empty and does not already end in one. -/
def addedFileSpecContent (pf : PatchedFile) : String :=
  let assembled := String.intercalate "\n" ((addedLineValues pf).map rstrip_newlines)
  if !(assembled == "") && !(strEndsWith assembled "\n") then assembled ++ "\n" else assembled

/-- Sample modify diff whose single hunk removes `X` and adds `Y` at line
1 — its expected old segment does not match the file content `a` used in
the mismatch scenarios. -/
def mismatchHunk : Hunk :=
  ⟨1, 1, 1, 1, [⟨LineKind.removed, "X\n"⟩, ⟨LineKind.added, "Y\n"⟩]⟩

/-- Sample modify file diff around `mismatchHunk`. -/
def mismatchFileDiff : PatchedFile :=
  ⟨"f.py", false, false, [mismatchHunk]⟩

/-- First hunk of the round-trip scenario: insert `x` after line 1
(`@@ -1,1 +1,2 @@`, context `a`, added `x`). -/
def roundtripHunk1 : Hunk :=
  ⟨1, 1, 1, 2, [⟨LineKind.context, "a\n"⟩, ⟨LineKind.added, "x\n"⟩]⟩

/-- Second hunk of the round-trip scenario: replace line 3 `c` by `C`
(`@@ -3,1 +4,1 @@`). -/
def roundtripHunk2 : Hunk :=
  ⟨3, 1, 4, 1, [⟨LineKind.removed, "c\n"⟩, ⟨LineKind.added, "C\n"⟩]⟩

/-- Modify file diff of the round-trip scenario, hunks in ascending
order as a parser produces them. -/
def roundtripFileDiff : PatchedFile :=
  ⟨"m.py", false, false, [roundtripHunk1, roundtripHunk2]⟩

/-- Sample remove file diff whose hunk expects the single line `a` —
used against a file whose actual content is `zzz`. -/
def removeFileDiff : PatchedFile :=
  ⟨"old.py", false, true, [⟨1, 1, 0, 0, [⟨LineKind.removed, "a\n"⟩]⟩]⟩

/-- Sample add file diff creating one line `x`. -/
def addFileDiff : PatchedFile :=
  ⟨"f.py", true, false, [⟨0, 0, 1, 1, [⟨LineKind.added, "x\n"⟩]⟩]⟩

/-- Sample modify file diff that replaces the line `x` (created by
`addFileDiff`) with `y` — the second step of the dependent batch used in
the dry-run scenario. -/
def modifyAfterAddFileDiff : PatchedFile :=
  ⟨"f.py", false, false, [⟨1, 1, 1, 1, [⟨LineKind.removed, "x\n"⟩, ⟨LineKind.added, "y\n"⟩]⟩]⟩

/-- The dependent batch: one diff text whose patchset first adds `f.py`
and then modifies it. -/
def dependentBatch : List (Except String (List PatchedFile)) :=
  [Except.ok [addFileDiff, modifyAfterAddFileDiff]]

/-- An empty file tree. -/
def emptyFs : FsMap := fun _ => ⟨none, []⟩

/-- Sample modify file diff with two hunks in ascending `target_start`
order, used to witness the descending application order. -/
def sortedFileDiff : PatchedFile :=
  ⟨"s.py", false, false,
    [⟨1, 1, 1, 2, [⟨LineKind.context, "p\n"⟩, ⟨LineKind.added, "q\n"⟩]⟩,
     ⟨3, 1, 4, 1, [⟨LineKind.removed, "r\n"⟩, ⟨LineKind.added, "R\n"⟩]⟩]⟩

/-- Sample hunk whose `target_start` (5) lies past the end of every
short buffer, used to witness the out-of-range append behavior. -/
def pastEndHunk : Hunk :=
  ⟨5, 1, 5, 1, [⟨LineKind.context, "q\n"⟩]⟩

example :
    apply_single_hunk ["a\n", "b\n", "c\n"]
      ⟨2, 2, 2, 1, [⟨LineKind.removed, "b\n"⟩, ⟨LineKind.removed, "c\n"⟩, ⟨LineKind.added, "z\n"⟩]⟩
      = ["a\n", "z\n"] := by decide

example : strStartsWith "a/x" "a/" = true := by decide

example : strEndsWith "ab\n" "\n" = true := by decide

example : strDrop "a/x.py" 2 = "x.py" := by decide

example : splitlines_keepends "a\nb" = ["a\n", "b"] := by decide

example : splitlines_keepends "a\nb\n" = ["a\n", "b\n"] := by decide

example : rstrip_newlines "ab\n" = "ab" := by decide

example :
    resolve_file_path "a/../../secret.txt" "/tmp/root" = "/tmp/root/../../secret.txt" := by decide

example : escapesRoot "/tmp/root" "/tmp/root/../../secret.txt" = true := by decide

example : escapesRoot "/tmp/root" "/tmp/root/sub/x.py" = false := by decide

lemma hunkNewLines_eq_contextAddedLines (h : Hunk) :
    hunkNewLines h = contextAddedLines h := by
  unfold hunkNewLines contextAddedLines
  congr 1
  apply List.filter_congr
  intro l _
  rcases l with ⟨k, v⟩
  cases k <;> rfl

lemma notAdded_length_eq_contextRemoved (h : Hunk) :
    (h.lines.filter (fun l => !(l.kind == LineKind.added))).length
      = (contextRemovedLines h).length := by
  unfold contextRemovedLines
  rw [List.length_map]
  congr 1
  apply List.filter_congr
  intro l _
  rcases l with ⟨k, v⟩
  cases k <;> rfl

/-- The claimed mismatch check does not exist in the code: on a file
whose content at the hunk's target position differs line-for-line from
the hunk's `Context`+`Removed` lines, the modify operation still
succeeds, reports no error, and rewrites the file (refuting claim C1 as
stated: no `HunkMismatchError` is raised and the content is not left
byte-identical). -/
theorem modify_mismatch_applied_anyway :
    ((splitlines_keepends "a\n").drop (mismatchHunk.target_start - 1)).take
        (contextRemovedLines mismatchHunk).length ≠ contextRemovedLines mismatchHunk
    ∧ (handle_modified_file mismatchFileDiff "f.py" ⟨some "a\n", []⟩ false true).1.success = true
    ∧ (handle_modified_file mismatchFileDiff "f.py" ⟨some "a\n", []⟩ false true).1.error = none
    ∧ (handle_modified_file mismatchFileDiff "f.py" ⟨some "a\n", []⟩ false true).2.1.content
        = some "Y\n"
    ∧ ("Y\n" : String) ≠ "a\n" := by
  refine ⟨by decide, by decide, by decide, by decide, by decide⟩

/-- Amended claim C1: `_apply_single_hunk` performs no verification of
the current content against the hunk's expected old segment — a non-dry
run on an existing file unconditionally backs the file up and rewrites
it with the blindly substituted hunk result, reporting success; no
mismatch failure mode exists. -/
theorem modify_no_verification (pf : PatchedFile) (path orig : String) (bks : List String) :
    handle_modified_file pf path ⟨some orig, bks⟩ false true
      = ({ success := true, file_path := path, lines_added := pf.added,
           lines_removed := pf.removed, hunks_applied := pf.hunks.length,
           backup_path := some (backupName path) },
         { content := some (String.join (apply_hunks_to_content (splitlines_keepends orig) pf)),
           backups := bks ++ [orig] },
         [FsEvent.backup orig,
          FsEvent.write (String.join (apply_hunks_to_content (splitlines_keepends orig) pf))]) :=
  rfl

/-- Claim C2 is the intent of the code (the comment on the reversed loop
says the order is chosen "to maintain line numbers", and the spec lists
round-trip as a testable property), but the code indexes each hunk by
`target_start` into the not-yet-patched buffer while iterating in
reverse, so any earlier hunk with a nonzero line delta shifts the later
hunks' positions: on `a b c` with a well-formed two-hunk diff producing
`a x b C`, the code yields `a x b c C` instead. -/
theorem roundtrip_violated_by_reverse_target_indexing :
    forwardApply ["a\n", "b\n", "c\n"] [roundtripHunk1, roundtripHunk2]
        = some ["a\n", "x\n", "b\n", "C\n"]
    ∧ apply_hunks_to_content ["a\n", "b\n", "c\n"] roundtripFileDiff
        = ["a\n", "x\n", "b\n", "c\n", "C\n"]
    ∧ (["a\n", "x\n", "b\n", "c\n", "C\n"] : List String)
        ≠ ["a\n", "x\n", "b\n", "C\n"] := by
  refine ⟨by decide, by decide, by decide⟩

/-- The claimed whole-content validation before deletion does not exist
in the code: a remove operation on a file whose content differs from the
hunk's `Removed`/`Context` lines still succeeds and deletes the file
(refuting the validation half of claim C6). -/
theorem remove_deletes_on_mismatch :
    removeFileDiff.hunks.map contextRemovedLines ≠ [splitlines_keepends "zzz\n"]
    ∧ (handle_removed_file removeFileDiff "old.py" ⟨some "zzz\n", []⟩ false true).1.success = true
    ∧ (handle_removed_file removeFileDiff "old.py" ⟨some "zzz\n", []⟩ false true).2.1.content
        = none := by
  refine ⟨by decide, by decide, by decide⟩

/-- Amended claim C6: a remove operation fails when the target file does
not exist; when it exists, the file is backed up and deleted
unconditionally — no validation of its content against the hunk's lines
is performed. -/
theorem remove_no_content_validation (pf : PatchedFile) (path : String) (bks : List String) :
    (∀ orig : String,
      handle_removed_file pf path ⟨some orig, bks⟩ false true
        = ({ success := true, file_path := path, lines_added := 0,
             lines_removed := pf.removed, hunks_applied := pf.hunks.length,
             backup_path := some (backupName path) },
           { content := none, backups := bks ++ [orig] },
           [FsEvent.backup orig, FsEvent.delete]))
    ∧ (handle_removed_file pf path ⟨none, bks⟩ false true).1.success = false :=
  ⟨fun _ => rfl, rfl⟩

/-- The claimed traversal rejection does not exist in the code: a
relative diff path that escapes the target root via `..` is resolved to
a concrete path lying outside the root, and no error is produced
(refuting claim C9 as stated). -/
theorem resolve_escapes_root :
    resolve_file_path "a/../../secret.txt" "/tmp/root" = "/tmp/root/../../secret.txt"
    ∧ escapesRoot "/tmp/root" (resolve_file_path "a/../../secret.txt" "/tmp/root") = true := by
  refine ⟨by decide, by decide⟩

/-- Amended claim C9: after stripping a conventional `a/`/`b/` prefix,
every relative diff path — including one that escapes the target root
via `..` — is joined under the target root unchecked; resolution is
total and has no failure mode. -/
theorem resolve_joins_relative_unchecked (p root : String)
    (h1 : strStartsWith p "a/" = false) (h2 : strStartsWith p "b/" = false)
    (h3 : isAbsolutePath p = false) :
    resolve_file_path p root = root ++ "/" ++ p := by
  simp [resolve_file_path, h1, h2, h3]

/-- Witness for `resolve_joins_relative_unchecked` at a concrete
traversal path. -/
theorem resolve_joins_relative_unchecked_witness :
    resolve_file_path "../../secret.txt" "/tmp/root" = "/tmp/root" ++ "/" ++ "../../secret.txt" :=
  resolve_joins_relative_unchecked "../../secret.txt" "/tmp/root" (by decide) (by decide) (by decide)

/-- Claim C3: the backup is created exactly once, immediately before the
content write for a non-dry-run modify and immediately before deletion
for a non-dry-run remove (the event trace is exactly `[backup, write]`
resp. `[backup, delete]`, with the backup holding the pre-mutation
bytes); an add never emits a backup; and when backup creation fails the
mutation is reported as a failed result with the original file left
untouched. -/
theorem backup_discipline (pf : PatchedFile) (path orig : String) (bks : List String) :
    (handle_modified_file pf path ⟨some orig, bks⟩ false true).2.2
        = [FsEvent.backup orig,
           FsEvent.write (String.join (apply_hunks_to_content (splitlines_keepends orig) pf))]
    ∧ (handle_modified_file pf path ⟨some orig, bks⟩ false true).2.1.backups = bks ++ [orig]
    ∧ (handle_removed_file pf path ⟨some orig, bks⟩ false true).2.2
        = [FsEvent.backup orig, FsEvent.delete]
    ∧ (handle_removed_file pf path ⟨some orig, bks⟩ false true).2.1.backups = bks ++ [orig]
    ∧ (∀ (st : FileState) (dr : Bool),
        (handle_added_file pf path st dr).2.2.filter FsEvent.isBackup = []
        ∧ (handle_added_file pf path st dr).2.1.backups = st.backups)
    ∧ (handle_modified_file pf path ⟨some orig, bks⟩ false false).1.success = false
    ∧ (handle_modified_file pf path ⟨some orig, bks⟩ false false).2.1 = ⟨some orig, bks⟩
    ∧ (handle_removed_file pf path ⟨some orig, bks⟩ false false).1.success = false
    ∧ (handle_removed_file pf path ⟨some orig, bks⟩ false false).2.1 = ⟨some orig, bks⟩ := by
  refine ⟨rfl, rfl, rfl, rfl, ?_, rfl, rfl, rfl, rfl⟩
  intro st dr
  rcases st with ⟨c, sb⟩
  cases c <;> cases dr <;> simp [handle_added_file, FsEvent.isBackup]

/-- Claim C5: a parse failure of one diff text is converted into exactly
one failed `PatchResult` whose `file_path` is the synthetic identifier
`patch_<i+1>`, and the remaining diff texts are processed exactly as they
would be without it; within a parsed patchset every file contributes
exactly one result (the per-file handlers are total, so no per-file
failure can abort the siblings), and the tail of the file list is
processed whatever the head's outcome was. -/
theorem failure_isolation (msg : String) (rest : List (Except String (List PatchedFile)))
    (i : Nat) (dir : String) (fs : FsMap) (dr bk : Bool)
    (files : List PatchedFile) (pf : PatchedFile) :
    applyPatchesAux (Except.error msg :: rest) i dir fs dr bk
      = (({ success := false, file_path := "patch_" ++ toString (i + 1),
            error := some msg } : PatchResult)
            :: (applyPatchesAux rest (i + 1) dir fs dr bk).1,
         (applyPatchesAux rest (i + 1) dir fs dr bk).2)
    ∧ (applyPatchesAux (Except.ok files :: rest) i dir fs dr bk).1
        = (processFiles files dir fs dr bk).1
            ++ (applyPatchesAux rest (i + 1) dir (processFiles files dir fs dr bk).2 dr bk).1
    ∧ (processFiles (pf :: files) dir fs dr bk).1
        = (apply_single_file_patch pf dir fs dr bk).1
            :: (processFiles files dir (apply_single_file_patch pf dir fs dr bk).2 dr bk).1
    ∧ (processFiles files dir fs dr bk).1.length = files.length
    ∧ (apply_patches (Except.error msg :: rest) dir fs dr bk).1.results
        = (applyPatchesAux (Except.error msg :: rest) 0 dir fs dr bk).1 := by
  refine ⟨rfl, rfl, rfl, ?_, rfl⟩
  clear pf
  induction files generalizing fs with
  | nil => rfl
  | cons p tl ih => simp [processFiles, ih]

/-- Claim C8: hunks are applied in descending `target_start` order (for
hunks listed in the parser's ascending order, the application folds over
the reversed, hence descending-sorted, list), and each single-hunk
application replaces the slice starting at `target_start - 1` of length
`count(Context+Removed)` with the hunk's `Context`+`Added` lines in
order. -/
theorem hunks_descending_slice_replacement (lines : List String) (pf : PatchedFile)
    (hsorted : pf.hunks.Pairwise (fun a b => a.target_start ≤ b.target_start)) :
    pf.hunks.reverse.Pairwise (fun a b => b.target_start ≤ a.target_start)
    ∧ apply_hunks_to_content lines pf = pf.hunks.reverse.foldl apply_single_hunk lines
    ∧ ∀ (buf : List String) (h : Hunk),
        apply_single_hunk buf h
          = buf.take (h.target_start - 1) ++ contextAddedLines h
              ++ buf.drop ((h.target_start - 1) + (contextRemovedLines h).length) := by
  refine ⟨?_, rfl, ?_⟩
  · rw [List.pairwise_reverse]
    exact hsorted
  · intro buf h
    show buf.take (h.target_start - 1) ++ hunkNewLines h
        ++ buf.drop ((h.target_start - 1)
            + (h.lines.filter (fun l => !(l.kind == LineKind.added))).length) = _
    rw [hunkNewLines_eq_contextAddedLines, notAdded_length_eq_contextRemoved]

/-- Witness for `hunks_descending_slice_replacement` on a concrete
two-hunk diff in ascending `target_start` order. -/
theorem hunks_descending_slice_replacement_witness :
    apply_hunks_to_content ["p\n", "b\n", "r\n"] sortedFileDiff
      = sortedFileDiff.hunks.reverse.foldl apply_single_hunk ["p\n", "b\n", "r\n"] :=
  (hunks_descending_slice_replacement ["p\n", "b\n", "r\n"] sortedFileDiff (by decide)).2.1

/-- Claim C10: a hunk whose `target_start` lies beyond the end of the
buffer does not fail — the clamping slices turn the substitution into an
append of the hunk's `Context`+`Added` lines after the existing lines —
and the surrounding modify operation on an existing file reports
success. -/
theorem hunk_past_end_appends (lines : List String) (h : Hunk)
    (hpos : lines.length < h.target_start) :
    apply_single_hunk lines h = lines ++ hunkNewLines h
    ∧ ∀ (pf : PatchedFile) (path orig : String) (bks : List String),
        (handle_modified_file pf path ⟨some orig, bks⟩ false true).1.success = true := by
  constructor
  · show lines.take (h.target_start - 1) ++ hunkNewLines h
        ++ lines.drop ((h.target_start - 1)
            + (h.lines.filter (fun l => !(l.kind == LineKind.added))).length) = _
    rw [List.take_of_length_le (by omega), List.drop_eq_nil_of_le (by omega), List.append_nil]
  · intro pf path orig bks
    rfl

/-- Witness for `hunk_past_end_appends`: a one-line buffer and a hunk
aimed at line 5. -/
theorem hunk_past_end_appends_witness :
    apply_single_hunk ["a\n"] pastEndHunk = ["a\n"] ++ hunkNewLines pastEndHunk :=
  (hunk_past_end_appends ["a\n"] pastEndHunk (by decide)).1

lemma foldl_added_append (ls : List PatchLine) (acc : List String) :
    ls.foldl
        (fun acc l =>
          if l.kind == LineKind.added then acc ++ [rstrip_newlines l.value] else acc) acc
      = acc ++ (ls.filter (fun l => l.kind == LineKind.added)).map
          (fun l => rstrip_newlines l.value) := by
  induction ls generalizing acc with
  | nil => simp
  | cons l tl ih =>
    by_cases hk : l.kind = LineKind.added
    · have hb : (l.kind == LineKind.added) = true := beq_iff_eq.mpr hk
      rw [List.foldl_cons, List.filter_cons, if_pos hb, if_pos hb, ih, List.map_cons]
      simp
    · have hb : ¬ ((l.kind == LineKind.added) = true) := by simp [hk]
      rw [List.foldl_cons, List.filter_cons, if_neg hb, if_neg hb, ih]

lemma added_sum_eq_flatMap_filter_length (hs : List Hunk) :
    (hs.map Hunk.addedCount).sum
      = ((hs.flatMap Hunk.lines).filter (fun l => l.kind == LineKind.added)).length := by
  induction hs with
  | nil => rfl
  | cons h tl ih => simp [Hunk.addedCount, List.filter_append, ih]

lemma added_eq_addedLineValues_length (pf : PatchedFile) :
    pf.added = (addedLineValues pf).length := by
  unfold PatchedFile.added addedLineValues
  rw [List.length_map, added_sum_eq_flatMap_filter_length]

/-- Claim C7: an add operation fails when the target exists; otherwise
the file is created with exactly the specified content — the `Added`
line texts joined by newlines with the single conditional trailing
newline — and `lines_added` equals the number of `Added` lines. -/
theorem add_file_content_and_counts (pf : PatchedFile) (path : String) (bks : List String) :
    (∀ c : String, (handle_added_file pf path ⟨some c, bks⟩ false).1.success = false)
    ∧ (handle_added_file pf path ⟨none, bks⟩ false).1.success = true
    ∧ (handle_added_file pf path ⟨none, bks⟩ false).2.1.content
        = some (addedFileSpecContent pf)
    ∧ (handle_added_file pf path ⟨none, bks⟩ false).1.lines_added
        = (addedLineValues pf).length := by
  refine ⟨fun c => rfl, rfl, ?_, added_eq_addedLineValues_length pf⟩
  show some _ = some (addedFileSpecContent pf)
  congr 1
  unfold addedFileSpecContent
  rw [foldl_added_append, List.nil_append]
  unfold addedLineValues
  rw [List.map_map]
  rfl

lemma handle_added_dry (pf : PatchedFile) (path : String) (st : FileState) :
    (handle_added_file pf path st true).2.1 = st := by
  obtain ⟨c, b⟩ := st
  cases c <;> rfl

lemma handle_removed_dry (pf : PatchedFile) (path : String) (st : FileState) (bk : Bool) :
    (handle_removed_file pf path st true bk).2.1 = st := by
  obtain ⟨c, b⟩ := st
  cases c <;> rfl

lemma handle_modified_dry (pf : PatchedFile) (path : String) (st : FileState) (bk : Bool) :
    (handle_modified_file pf path st true bk).2.1 = st := by
  obtain ⟨c, b⟩ := st
  cases c <;> rfl

lemma apply_single_file_dry (pf : PatchedFile) (dir : String) (fs : FsMap) (bk : Bool) :
    (apply_single_file_patch pf dir fs true bk).2 = fs := by
  have hstate : ∀ (fp : String) (st : FileState),
      (if pf.is_added_file then handle_added_file pf fp st true
       else if pf.is_removed_file then handle_removed_file pf fp st true bk
       else handle_modified_file pf fp st true bk).2.1 = st := by
    intro fp st
    cases hA : pf.is_added_file <;> cases hR : pf.is_removed_file <;>
      simp [hA, hR, handle_added_dry, handle_removed_dry, handle_modified_dry]
  funext p
  show (if p = resolve_file_path pf.path dir
        then (if pf.is_added_file
              then handle_added_file pf (resolve_file_path pf.path dir)
                     (fs (resolve_file_path pf.path dir)) true
              else if pf.is_removed_file
              then handle_removed_file pf (resolve_file_path pf.path dir)
                     (fs (resolve_file_path pf.path dir)) true bk
              else handle_modified_file pf (resolve_file_path pf.path dir)
                     (fs (resolve_file_path pf.path dir)) true bk).2.1
        else fs p) = fs p
  by_cases hp : p = resolve_file_path pf.path dir
  · rw [if_pos hp, hstate, hp]
  · rw [if_neg hp]

lemma processFiles_dry (files : List PatchedFile) (dir : String) (fs : FsMap) (bk : Bool) :
    (processFiles files dir fs true bk).2 = fs := by
  induction files generalizing fs with
  | nil => rfl
  | cons p tl ih =>
    show (processFiles tl dir (apply_single_file_patch p dir fs true bk).2 true bk).2 = fs
    rw [apply_single_file_dry, ih]

lemma applyPatchesAux_dry (parsed : List (Except String (List PatchedFile))) (i : Nat)
    (dir : String) (fs : FsMap) (bk : Bool) :
    (applyPatchesAux parsed i dir fs true bk).2 = fs := by
  induction parsed generalizing i fs with
  | nil => rfl
  | cons e tl ih =>
    cases e with
    | error msg =>
      show (applyPatchesAux tl (i + 1) dir fs true bk).2 = fs
      exact ih (i + 1) fs
    | ok files =>
      show (applyPatchesAux tl (i + 1) dir (processFiles files dir fs true bk).2 true bk).2 = fs
      rw [processFiles_dry, ih]

/-- Amended claim C4: each single file operation run dry leaves the
file's state (content and backups) unchanged and emits no filesystem
event, and its reported counts (`lines_added`, `lines_removed`,
`hunks_applied`) equal those of a non-dry-run invocation from the same
file state (with backup creation succeeding); at the batch level a dry
run leaves the whole tree unchanged.  (Count equality does not lift to
whole dependent batches — see the counterexample — because a dry run
does not simulate the filesystem updates of earlier operations.) -/
theorem dry_run_purity_per_operation (pf : PatchedFile) (path : String) (st : FileState)
    (bk : Bool) :
    (handle_added_file pf path st true).2.1 = st
    ∧ (handle_added_file pf path st true).2.2 = []
    ∧ (handle_removed_file pf path st true bk).2.1 = st
    ∧ (handle_removed_file pf path st true bk).2.2 = []
    ∧ (handle_modified_file pf path st true bk).2.1 = st
    ∧ (handle_modified_file pf path st true bk).2.2 = []
    ∧ ((handle_added_file pf path st true).1.lines_added,
       (handle_added_file pf path st true).1.lines_removed,
       (handle_added_file pf path st true).1.hunks_applied)
        = ((handle_added_file pf path st false).1.lines_added,
           (handle_added_file pf path st false).1.lines_removed,
           (handle_added_file pf path st false).1.hunks_applied)
    ∧ ((handle_removed_file pf path st true bk).1.lines_added,
       (handle_removed_file pf path st true bk).1.lines_removed,
       (handle_removed_file pf path st true bk).1.hunks_applied)
        = ((handle_removed_file pf path st false true).1.lines_added,
           (handle_removed_file pf path st false true).1.lines_removed,
           (handle_removed_file pf path st false true).1.hunks_applied)
    ∧ ((handle_modified_file pf path st true bk).1.lines_added,
       (handle_modified_file pf path st true bk).1.lines_removed,
       (handle_modified_file pf path st true bk).1.hunks_applied)
        = ((handle_modified_file pf path st false true).1.lines_added,
           (handle_modified_file pf path st false true).1.lines_removed,
           (handle_modified_file pf path st false true).1.hunks_applied)
    ∧ ∀ (parsed : List (Except String (List PatchedFile))) (i : Nat) (dir : String)
        (fs : FsMap), (applyPatchesAux parsed i dir fs true bk).2 = fs := by
  obtain ⟨c, sb⟩ := st
  cases c <;>
    exact ⟨rfl, rfl, rfl, rfl, rfl, rfl, rfl, rfl, rfl,
      fun parsed i dir fs => applyPatchesAux_dry parsed i dir fs bk⟩

/-- Claim C4 fails as stated at whole-batch granularity: in a batch
whose patchset first adds `f.py` and then modifies it, the dry run does
not simulate the add, so the modify step fails its existence check and
reports zero counts, while the non-dry run reports the real counts —
the two invocations disagree on `(lines_added, lines_removed,
hunks_applied)` for the second file. -/
theorem dry_run_counts_differ_on_dependent_batch :
    (applyPatchesAux dependentBatch 0 "r" emptyFs true true).1.map
        (fun r => (r.lines_added, r.lines_removed, r.hunks_applied))
      = [(1, 0, 1), (0, 0, 0)]
    ∧ (applyPatchesAux dependentBatch 0 "r" emptyFs false true).1.map
        (fun r => (r.lines_added, r.lines_removed, r.hunks_applied))
      = [(1, 0, 1), (1, 1, 1)]
    ∧ ([((1 : Nat), (0 : Nat), (1 : Nat)), (0, 0, 0)] : List (Nat × Nat × Nat))
        ≠ [(1, 0, 1), (1, 1, 1)] := by
  refine ⟨by decide, by decide, by decide⟩
